import Mathlib

/-!
Shallow embedding of the link-unfurling pipeline of this repository
(`src/extensions/gitea.py`, `src/extensions/ogp.py`).

Python strings are modelled as Lean `String`/`List Char` (both count code
points), machine integers as `Int`/`Nat`, fallible code as `Option`/`Except`,
and the network / chat sink as explicit oracles passed into the pipeline
functions.  Names follow the source; leading underscores of the Python
helpers are dropped because Lean reserves identifiers starting with `_`.
-/

/-! ### URL recognizers (`GITEA_URL_PATTERN`, `GSNET_URL_PATTERN`)

`GITEA_URL_PATTERN = re.compile(r"http://10\.77\.0\.20/[-\w./()?%&=!~#]*")`
`GSNET_URL_PATTERN = re.compile(r"http://10\.\d{,3}\.\d{,3}\.\d{,3}[-\w./()?%&=!~#]*")`

The character class `[-\w./()?%&=!~#]` is modelled over ASCII word
characters (Python's `\w` additionally matches non-ASCII word characters,
which no claim depends on). -/

/-- One character of the class `[-\w./()?%&=!~#]` shared by both patterns. -/
def classChar (c : Char) : Bool :=
  c = '-' || c.isAlphanum || c = '_' || c = '.' || c = '/' || c = '(' ||
  c = ')' || c = '?' || c = '%' || c = '&' || c = '=' || c = '!' ||
  c = '~' || c = '#'

/-- Length of the maximal prefix of pattern-class characters: the extent the
greedy trailing `[-\w./()?%&=!~#]*` consumes. -/
def runLen (l : List Char) : Nat :=
  (l.takeWhile classChar).length

/-- Length of the maximal prefix of ASCII digits. -/
def digitPrefixLen (l : List Char) : Nat :=
  (l.takeWhile Char.isDigit).length

/-- Attempt of `GITEA_URL_PATTERN` at the start of `l`: the literal prefix
`http://10.77.0.20/` (18 characters) followed by the greedy class star.
Returns the length of the match, `none` when the pattern does not match
here. -/
def giteaMatchLen (l : List Char) : Option Nat :=
  if ("http://10.77.0.20/".toList).isPrefixOf l then
    some (18 + runLen (l.drop 18))
  else none

/-- The ways `\d{,3}\.` can match a prefix of `l`, as
(consumed length, remainder) pairs in greedy order (most digits first),
mirroring the regex engine's backtracking order. -/
def ddChoices (l : List Char) : List (Nat × List Char) :=
  ((List.range (min 3 (digitPrefixLen l) + 1)).reverse).filterMap
    (fun j =>
      match l.drop j with
      | '.' :: r => some (j + 1, r)
      | _ => none)

/-- Attempt of `GSNET_URL_PATTERN` at the start of `l`: the literal prefix
`http://10.` (10 characters), then `\d{,3}\.` twice (backtracking, greedy
order), then a final `\d{,3}` and the class star.  The final two pieces are
never backtracked into because nothing follows them, so the greedy engine
takes the maximal digit prefix and then the maximal class run. -/
def gsnetMatchLen (l : List Char) : Option Nat :=
  if ("http://10.".toList).isPrefixOf l then
    (ddChoices (l.drop 10)).findSome? (fun c1 =>
      (ddChoices c1.2).findSome? (fun c2 =>
        let d3 := min 3 (digitPrefixLen c2.2)
        some (10 + c1.1 + c2.1 + d3 + runLen (c2.2.drop d3))))
  else none

/-- `re.findall` for a pattern whose attempt-at-a-position function is `f`:
scan left to right, on a match record it and resume after it (a zero-width
match would advance by one position, as in Python; neither pattern here can
match the empty string).  The fuel argument is bounded by the list length,
which every scan step decreases. -/
def findallAux (f : List Char → Option Nat) : Nat → List Char → List String
  | 0, _ => []
  | _, [] => []
  | fuel + 1, c :: rest =>
    match f (c :: rest) with
    | none => findallAux f fuel rest
    | some n => String.mk ((c :: rest).take n) :: findallAux f fuel (rest.drop (n - 1))

/-- `GITEA_URL_PATTERN.findall` -/
def giteaFindall (s : String) : List String :=
  findallAux giteaMatchLen s.toList.length s.toList

/-- `GSNET_URL_PATTERN.findall` (`get_gsnet_urls` in `ogp.py`). -/
def gsnetFindall (s : String) : List String :=
  findallAux gsnetMatchLen s.toList.length s.toList

/-! ### `urllib.parse.urlparse` (the parts the source reads) -/

/-- Characters allowed in a URL scheme after the leading letter
(CPython's `scheme_chars`). -/
def isSchemeChar (c : Char) : Bool :=
  c.isAlphanum || c = '+' || c = '-' || c = '.'

/-- Split a list at the first occurrence of `c`; `none` when absent. -/
def splitOnFirst (cs : List Char) (c : Char) : List Char × Option (List Char) :=
  match cs.findIdx? (fun x => x == c) with
  | some i => (cs.take i, some (cs.drop (i + 1)))
  | none => (cs, none)

structure UrlParts where
  scheme : String
  netloc : String
  path : String
  query : String
  fragment : String
  deriving DecidableEq, Repr

/-- `urllib.parse.urlparse`, restricted to the fields the source uses
(`scheme`, `netloc`, `path`); `params` splitting is omitted because `;`
is not in either URL pattern's character class. -/
def urlparse (s : String) : UrlParts :=
  let cs := s.toList
  let schemeRest :=
    match cs.findIdx? (fun x => x == ':') with
    | some i =>
      if 0 < i ∧ (cs.headD ' ').isAlpha ∧ (cs.take i).all isSchemeChar then
        (String.mk ((cs.take i).map Char.toLower), cs.drop (i + 1))
      else ("", cs)
    | none => ("", cs)
  let netlocRest :=
    match schemeRest.2 with
    | '/' :: '/' :: r =>
      let nl := r.takeWhile (fun c => !(c = '/' || c = '?' || c = '#'))
      (String.mk nl, r.drop nl.length)
    | r => ("", r)
  let fragSplit := splitOnFirst netlocRest.2 '#'
  let querySplit := splitOnFirst fragSplit.1 '?'
  { scheme := schemeRest.1
    netloc := netlocRest.1
    path := String.mk querySplit.1
    query := String.mk (querySplit.2.getD [])
    fragment := String.mk (fragSplit.2.getD []) }

/-! ### `pathlib.PurePosixPath(...).parts` and `.name` -/

/-- `str.split(sep)` for a one-character separator (empty groups kept,
as in Python). -/
def splitChar (sep : Char) : List Char → List (List Char)
  | [] => [[]]
  | c :: rest =>
    if c = sep then [] :: splitChar sep rest
    else
      match splitChar sep rest with
      | g :: gs => (c :: g) :: gs
      | [] => [[c]]

/-- `PurePosixPath(p).parts`: a root entry (`"/"`, or `"//"` for a path with
exactly two leading slashes) when the path is absolute, then the non-empty,
non-`"."` components. -/
def posixParts (p : String) : List String :=
  let comps := ((splitChar '/' p.toList).map String.mk).filter (fun c => c != "" && c != ".")
  if ("//".toList).isPrefixOf p.toList && !(("///".toList).isPrefixOf p.toList) then
    "//" :: comps
  else if ("/".toList).isPrefixOf p.toList then "/" :: comps
  else comps

/-- `PurePosixPath(p).name`: the last component, `""` for a bare root or an
empty path. -/
def posixName (p : String) : String :=
  match (posixParts p).reverse with
  | [] => ""
  | x :: _ => if x = "/" ∨ x = "//" then "" else x

/-! ### Python `int(str)` -/

/-- The whitespace `int()` strips (ASCII portion of `str.strip()`). -/
def isPySpace (c : Char) : Bool :=
  c = ' ' || c = '\t' || c = '\n' || c = '\r' || c = '\x0b' || c = '\x0c'

/-- Digits continuing a number already begun: further digits, with single
underscores allowed strictly between digits (Python numeric literals). -/
def pudGo : List Char → Nat → Option Nat
  | [], acc => some acc
  | '_' :: rest, acc =>
    match rest with
    | d :: rest2 =>
      if d.isDigit then pudGo rest2 (acc * 10 + (d.toNat - 48)) else none
    | [] => none
  | c :: rest, acc =>
    if c.isDigit then pudGo rest (acc * 10 + (c.toNat - 48)) else none

/-- A non-empty digit group with optional single underscores between digits. -/
def parseUnderscoreDigits : List Char → Option Nat
  | [] => none
  | c :: rest => if c.isDigit then pudGo rest (c.toNat - 48) else none

/-- Python `int(s)` on a string: optional surrounding whitespace, optional
sign, then digits (underscore separators allowed); `none` models
`ValueError`.  Non-ASCII digits, which Python would also accept, are not
modelled (no claim depends on them). -/
def pyInt (s : String) : Option Int :=
  let core := ((s.toList.dropWhile isPySpace).reverse.dropWhile isPySpace).reverse
  match core with
  | '+' :: ds => (parseUnderscoreDigits ds).map Int.ofNat
  | '-' :: ds => (parseUnderscoreDigits ds).map (fun n => -(n : Int))
  | ds => (parseUnderscoreDigits ds).map Int.ofNat

/-! ### `parse_gitea_url` (the resource classifier) -/

inductive GiteaResourceType where
  | REPO
  | ISSUE
  | PULL_REQUEST
  | COMMIT
  | USER
  | UNKNOWN
  deriving DecidableEq, Repr

structure GiteaResource where
  resource_type : GiteaResourceType
  owner : String
  repo : Option String := none
  number : Option Int := none
  sha : Option String := none
  url : String := ""
  deriving DecidableEq, Repr

/-- `parse_gitea_url` from `gitea.py`: split the URL path into
`PurePosixPath` parts (`parts[0]` is the root `"/"`) and dispatch on the
segment count and the literal segments `issues`/`pulls`/`commit`. -/
def parse_gitea_url (url : String) : GiteaResource :=
  let parsed := urlparse url
  let parts := posixParts parsed.path
  if parts.length < 2 then
    { resource_type := .UNKNOWN, owner := "", url := url }
  else
    let owner := parts.getD 1 ""
    if parts.length = 2 then
      { resource_type := .USER, owner := owner, url := url }
    else
      let repo := parts.getD 2 ""
      if parts.length = 3 then
        { resource_type := .REPO, owner := owner, repo := some repo, url := url }
      else if 5 ≤ parts.length ∧ parts.getD 3 "" = "issues" then
        match pyInt (parts.getD 4 "") with
        | none => { resource_type := .UNKNOWN, owner := owner, url := url }
        | some n =>
          { resource_type := .ISSUE, owner := owner, repo := some repo,
            number := some n, url := url }
      else if 5 ≤ parts.length ∧ parts.getD 3 "" = "pulls" then
        match pyInt (parts.getD 4 "") with
        | none => { resource_type := .UNKNOWN, owner := owner, url := url }
        | some n =>
          { resource_type := .PULL_REQUEST, owner := owner, repo := some repo,
            number := some n, url := url }
      else if 5 ≤ parts.length ∧ parts.getD 3 "" = "commit" then
        { resource_type := .COMMIT, owner := owner, repo := some repo,
          sha := some (parts.getD 4 ""), url := url }
      else
        { resource_type := .UNKNOWN, owner := owner, url := url }

/-! ### Wire-level JSON values and Python value semantics -/

inductive Json where
  | null
  | bool (b : Bool)
  | num (n : Int)
  | str (s : String)
  | arr (xs : List Json)
  | obj (kvs : List (String × Json))

/-- Python truthiness of a JSON value (`if x:`). -/
def truthy : Json → Bool
  | .null => false
  | .bool b => b
  | .num n => n != 0
  | .str s => s != ""
  | .arr xs => !xs.isEmpty
  | .obj kvs => !kvs.isEmpty

/-- `x or y` on Python values. -/
def pyOr (a b : Json) : Json :=
  if truthy a then a else b

mutual
/-- Python `repr` of a JSON value, used by `str()` on containers (string
escaping inside `repr` is not modelled; no container reaches a string
position in the source on well-formed metadata). -/
def pyRepr : Json → String
  | .null => "None"
  | .bool true => "True"
  | .bool false => "False"
  | .num n => toString n
  | .str s => "'" ++ s ++ "'"
  | .arr xs => "[" ++ pyReprList xs ++ "]"
  | .obj kvs => "\x7b" ++ pyReprPairs kvs ++ "\x7d"

def pyReprList : List Json → String
  | [] => ""
  | [x] => pyRepr x
  | x :: xs => pyRepr x ++ ", " ++ pyReprList xs

def pyReprPairs : List (String × Json) → String
  | [] => ""
  | [kv] => "'" ++ kv.1 ++ "': " ++ pyRepr kv.2
  | kv :: kvs => "'" ++ kv.1 ++ "': " ++ pyRepr kv.2 ++ ", " ++ pyReprPairs kvs
end

/-- Python `str()` of a JSON value (also the conversion an f-string performs). -/
def pyStr : Json → String
  | .str s => s
  | v => pyRepr v

/-- `d.get(k, default)`: succeeds on a dict, raises `AttributeError` on any
other receiver (the error string names the Python exception). -/
def dictGet (j : Json) (k : String) (d : Json) : Except String Json :=
  match j with
  | .obj kvs => .ok ((kvs.lookup k).getD d)
  | _ => .error "AttributeError"

/-- A value used as a Python `str` (sliced / measured / concatenated):
a string passes through, a falsy value was already replaced by `""` before
this point, any other value raises `TypeError`. -/
def asPyStr (j : Json) : Except String String :=
  match j with
  | .str s => .ok s
  | _ => .error "TypeError"

/-- `", ".join(lb.get("name", "") for lb in labels)`: the receiver must be a
list, its elements dicts, and the joined names strings; anything else
raises. -/
def labelNames (labels : Json) : Except String String :=
  match labels with
  | .arr ls => do
    let names ← ls.mapM (fun lb => do
      let n ← dictGet lb "name" (.str "")
      asPyStr n)
    pure (String.intercalate ", " names)
  | _ => .error "TypeError"

/-! ### `datetime.fromisoformat` (Python 3.9) and `_parse_datetime` -/

structure PyDateTime where
  year : Nat
  month : Nat
  day : Nat
  hour : Nat
  minute : Nat
  second : Nat
  microsecond : Nat
  /-- UTC offset in minutes when an offset was given. -/
  tzOffsetMinutes : Option Int
  deriving DecidableEq, Repr

/-- Two ASCII digits. -/
def parse2 : List Char → Option (Nat × List Char)
  | a :: b :: r =>
    if a.isDigit && b.isDigit then some ((a.toNat - 48) * 10 + (b.toNat - 48), r)
    else none
  | _ => none

/-- Four ASCII digits. -/
def parse4 (cs : List Char) : Option (Nat × List Char) := do
  let (hi, r1) ← parse2 cs
  let (lo, r2) ← parse2 r1
  pure (hi * 100 + lo, r2)

/-- The `HH[:MM[:SS[.fff[fff]]]]` core of an ISO time string, as
(hour, minute, second, microsecond); exactly the shapes Python 3.9's
`fromisoformat` accepts. -/
def parseTimeCore (cs : List Char) : Option (Nat × Nat × Nat × Nat) := do
  let (h, r1) ← parse2 cs
  match r1 with
  | [] => pure (h, 0, 0, 0)
  | ':' :: r2 => do
    let (m, r3) ← parse2 r2
    match r3 with
    | [] => pure (h, m, 0, 0)
    | ':' :: r4 => do
      let (s, r5) ← parse2 r4
      match r5 with
      | [] => pure (h, m, s, 0)
      | '.' :: r6 =>
        if r6.length = 3 ∧ r6.all Char.isDigit then
          pure (h, m, s, (r6.foldl (fun a c => a * 10 + (c.toNat - 48)) 0) * 1000)
        else if r6.length = 6 ∧ r6.all Char.isDigit then
          pure (h, m, s, r6.foldl (fun a c => a * 10 + (c.toNat - 48)) 0)
        else none
      | _ => none
    | _ => none
  | _ => none

/-- `datetime.fromisoformat` (Python 3.9 grammar): `YYYY-MM-DD`, optionally
a one-character separator and `HH[:MM[:SS[.fff[fff]]]]`, optionally a
`±HH:MM[:SS[.ffffff]]` offset (found by scanning the time part for a sign,
as CPython does).  Day-of-month validation is approximated by `1..31`
(per-month lengths are not modelled; no claim depends on them). -/
def parseIsoDatetime (s : String) : Option PyDateTime := do
  let cs := s.toList
  let (y, r1) ← parse4 cs
  let r2 ← match r1 with | '-' :: r => some r | _ => none
  let (mo, r3) ← parse2 r2
  let r4 ← match r3 with | '-' :: r => some r | _ => none
  let (d, r5) ← parse2 r4
  if !(1 ≤ mo && mo ≤ 12 && 1 ≤ d && d ≤ 31) then none
  else
    match r5 with
    | [] => pure ⟨y, mo, d, 0, 0, 0, 0, none⟩
    | _sep :: r6 => do
      let tzIdx :=
        match r6.findIdx? (fun c => c == '-') with
        | some i => some i
        | none => r6.findIdx? (fun c => c == '+')
      let (timeChars, tzChars) :=
        match tzIdx with
        | some i => (r6.take i, some (r6.drop i))
        | none => (r6, none)
      let (h, mi, sec, us) ← parseTimeCore timeChars
      if !(h ≤ 23 && mi ≤ 59 && sec ≤ 59) then none
      else
        match tzChars with
        | none => pure ⟨y, mo, d, h, mi, sec, us, none⟩
        | some (sign :: rest) => do
          if rest.length < 5 then none
          else
            let (oh, om, os, _) ← parseTimeCore rest
            if !(oh ≤ 23 && om ≤ 59 && os ≤ 59) then none
            else
              let mins : Int := (oh * 60 + om : Nat)
              pure ⟨y, mo, d, h, mi, sec, us,
                some (if sign = '-' then -mins else mins)⟩
        | some [] => none

/-- `value.replace("Z", "+00:00")`: since the pattern is the single
character `Z`, the replacement is per-character. -/
def replaceZ (s : String) : String :=
  String.mk (s.toList.foldr (fun c acc => if c = 'Z' then "+00:00".toList ++ acc else c :: acc) [])

/-- `_parse_datetime` from `gitea.py`:
`datetime.fromisoformat(value.replace("Z", "+00:00"))`.  A non-string value
raises (`AttributeError` on `.replace`), an unparseable string raises
`ValueError`. -/
def parse_datetime (v : Json) : Except String PyDateTime :=
  match v with
  | .str s =>
    match parseIsoDatetime (replaceZ s) with
    | some d => .ok d
    | none => .error "ValueError"
  | _ => .error "AttributeError"

/-! ### The normalized preview (`discord.Embed` as the source fills it) -/

structure EmbedField where
  name : String
  value : String
  inline : Bool
  deriving DecidableEq, Repr

/-- The slots of `discord.Embed` the source writes.  String slots hold the
serialized text (`str()` of what the source passes). -/
structure Embed where
  title : String := ""
  url : String := ""
  description : String := ""
  color : Option Nat := none
  fields : List EmbedField := []
  authorName : Option String := none
  authorIcon : Option String := none
  thumbnail : Option String := none
  image : Option String := none
  footer : Option String := none
  timestamp : Option PyDateTime := none
  deriving DecidableEq, Repr

def COLOR_GITEA : Nat := 0x609926
def COLOR_ISSUE_OPEN : Nat := 0x28A745
def COLOR_ISSUE_CLOSED : Nat := 0xCB2431
def COLOR_PR_MERGED : Nat := 0x6F42C1
def COLOR_COMMIT : Nat := 0x0366D6
def COLOR_USER : Nat := 0x586069

/-- f-string interpolation of an optional resource field (`None` prints as
`"None"`). -/
def pyStrOpt : Option String → String
  | none => "None"
  | some s => s

/-! ### The code-forge preview builders (`gitea.py`) -/

/-- Python slice `s[:n]`. -/
def pySlice (s : String) (n : Nat) : String :=
  String.mk (s.toList.take n)

/-- `str.strip()` (ASCII whitespace; the source never feeds it non-ASCII
whitespace-sensitive input). -/
def pyStrip (s : String) : String :=
  String.mk (((s.toList.dropWhile isPySpace).reverse.dropWhile isPySpace).reverse)

/-- `s.split("\n", 1)`: the first line and, when a newline exists, the rest. -/
def splitFirstNL (s : String) : String × Option String :=
  match splitOnFirst s.toList '\n' with
  | (a, some b) => (String.mk a, some (String.mk b))
  | (a, none) => (String.mk a, none)

def greenCircle : String := String.mk [Char.ofNat 0x1F7E2]

def redCircle : String := String.mk [Char.ofNat 0x1F534]

/-- `_state_emoji`: duck-typed in the source, so it takes the raw value
(`==` against a non-string is simply false). -/
def state_emoji : Json → String
  | .str "open" => greenCircle
  | .str "closed" => redCircle
  | _ => ""

/-- f-string interpolation of the optional `number` field. -/
def pyStrInt : Option Int → String
  | none => "None"
  | some n => toString n

/-- `_build_repo_embed` -/
def build_repo_embed (data : Json) (url : String) : Except String Embed := do
  let full_name ← dictGet data "full_name" (.str "")
  let description := pyOr (← dictGet data "description" (.str "")) (.str "")
  let stars ← dictGet data "stars_count" (.num 0)
  let forks ← dictGet data "forks_count" (.num 0)
  let openIssues ← dictGet data "open_issues_count" (.num 0)
  let language ← dictGet data "language" (.str "")
  let fields :=
    [EmbedField.mk "Stars" (pyStr stars) true,
     EmbedField.mk "Forks" (pyStr forks) true,
     EmbedField.mk "Open Issues" (pyStr openIssues) true] ++
    (if truthy language then [EmbedField.mk "Language" (pyStr language) true] else [])
  let owner_data ← dictGet data "owner" (.obj [])
  let author ← if truthy owner_data then do
      let login ← dictGet owner_data "login" (.str "")
      let icon ← dictGet owner_data "avatar_url" (.str "")
      pure (some (pyStr login), some (pyStr icon))
    else pure (none, none)
  let ca ← dictGet data "created_at" .null
  let ts ← if truthy ca then do
      let t ← parse_datetime ca
      pure (some t)
    else pure none
  pure { title := pyStr full_name, url := url, description := pyStr description,
         color := some COLOR_GITEA, fields := fields,
         authorName := author.1, authorIcon := author.2,
         footer := some (pyStr full_name), timestamp := ts }

/-- `_build_issue_embed` -/
def build_issue_embed (data : Json) (resource : GiteaResource) : Except String Embed := do
  let state ← dictGet data "state" (.str "open")
  let isOpen := match state with | .str "open" => true | _ => false
  let color := if isOpen then COLOR_ISSUE_OPEN else COLOR_ISSUE_CLOSED
  let number ← dictGet data "number" (.str "")
  let titleJ ← dictGet data "title" (.str "")
  let title := "#" ++ pyStr number ++ " " ++ pyStr titleJ
  let body ← asPyStr (pyOr (← dictGet data "body" (.str "")) (.str ""))
  let description := pySlice body 200 ++ (if 200 < body.length then "..." else "")
  let labels := pyOr (← dictGet data "labels" (.arr [])) (.arr [])
  let labelFields ← if truthy labels then do
      let names ← labelNames labels
      pure [EmbedField.mk "Labels" names true]
    else pure []
  let comments ← dictGet data "comments" (.num 0)
  let user ← dictGet data "user" (.obj [])
  let author ← if truthy user then do
      let login ← dictGet user "login" (.str "")
      let icon ← dictGet user "avatar_url" (.str "")
      pure (some (pyStr login), some (pyStr icon))
    else pure (none, none)
  let ca ← dictGet data "created_at" .null
  let ts ← if truthy ca then do
      let t ← parse_datetime ca
      pure (some t)
    else pure none
  pure { title := title, url := resource.url, description := description,
         color := some color,
         fields := [EmbedField.mk "State" (state_emoji state ++ " " ++ pyStr state) true] ++
           labelFields ++ [EmbedField.mk "Comments" (pyStr comments) true],
         authorName := author.1, authorIcon := author.2,
         footer := some (resource.owner ++ "/" ++ pyStrOpt resource.repo),
         timestamp := ts }

/-- `_pr_state_label` -/
def pr_state_label (data : Json) : Except String String := do
  let merged ← dictGet data "merged" .null
  if truthy merged then pure "merged"
  else do
    let st ← dictGet data "state" (.str "open")
    pure (pyStr st)

/-- `_pr_color` -/
def pr_color (data : Json) : Except String Nat := do
  let merged ← dictGet data "merged" .null
  if truthy merged then pure COLOR_PR_MERGED
  else do
    let st ← dictGet data "state" (.str "open")
    match st with
    | .str "open" => pure COLOR_ISSUE_OPEN
    | _ => pure COLOR_ISSUE_CLOSED

/-- `_build_pull_embed` -/
def build_pull_embed (data : Json) (resource : GiteaResource) : Except String Embed := do
  let state_label ← pr_state_label data
  let color ← pr_color data
  let number ← dictGet data "number" (.str "")
  let titleJ ← dictGet data "title" (.str "")
  let title := "#" ++ pyStr number ++ " " ++ pyStr titleJ
  let body ← asPyStr (pyOr (← dictGet data "body" (.str "")) (.str ""))
  let description := pySlice body 200 ++ (if 200 < body.length then "..." else "")
  let labels := pyOr (← dictGet data "labels" (.arr [])) (.arr [])
  let labelFields ← if truthy labels then do
      let names ← labelNames labels
      pure [EmbedField.mk "Labels" names true]
    else pure []
  let user ← dictGet data "user" (.obj [])
  let author ← if truthy user then do
      let login ← dictGet user "login" (.str "")
      let icon ← dictGet user "avatar_url" (.str "")
      pure (some (pyStr login), some (pyStr icon))
    else pure (none, none)
  let ca ← dictGet data "created_at" .null
  let ts ← if truthy ca then do
      let t ← parse_datetime ca
      pure (some t)
    else pure none
  pure { title := title, url := resource.url, description := description,
         color := some color,
         fields := [EmbedField.mk "State"
             (state_emoji (.str state_label) ++ " " ++ state_label) true] ++ labelFields,
         authorName := author.1, authorIcon := author.2,
         footer := some (resource.owner ++ "/" ++ pyStrOpt resource.repo),
         timestamp := ts }

/-- `_build_commit_embed` -/
def build_commit_embed (data : Json) (resource : GiteaResource) : Except String Embed := do
  let sha ← asPyStr (pyOr (← dictGet data "sha" (.str "")) (.str ""))
  let short_sha := pySlice sha 7
  let commit_info := pyOr (← dictGet data "commit" (.obj [])) (.obj [])
  let message ← asPyStr (pyOr (← dictGet commit_info "message" (.str "")) (.str ""))
  let lines := splitFirstNL message
  let first_line := lines.1
  let rest := match lines.2 with | some r => pyStrip r | none => ""
  let title := "`" ++ short_sha ++ "` " ++ first_line
  let author_info := pyOr (← dictGet commit_info "author" (.obj [])) (.obj [])
  let committer_name ← dictGet author_info "name" (.str "")
  let dt ← dictGet author_info "date" .null
  let ts ← if truthy dt then do
      let t ← parse_datetime dt
      pure (some t)
    else pure none
  pure { title := title, url := resource.url, description := pySlice rest 200,
         color := some COLOR_COMMIT,
         authorName := if truthy committer_name then some (pyStr committer_name) else none,
         footer := some (resource.owner ++ "/" ++ pyStrOpt resource.repo),
         timestamp := ts }

/-- `_build_user_embed` -/
def build_user_embed (data : Json) (url : String) : Except String Embed := do
  let login ← dictGet data "login" (.str "")
  let descr ← dictGet data "description" (.str "")
  let bioRaw ← dictGet data "bio" (.str "")
  let bio := pyOr (pyOr descr bioRaw) (.str "")
  let avatar ← dictGet data "avatar_url" (.str "")
  let cr ← dictGet data "created" .null
  let ts ← if truthy cr then do
      let t ← parse_datetime cr
      pure (some t)
    else pure none
  pure { title := pyStr login, url := url, description := pyStr bio,
         color := some COLOR_USER,
         thumbnail := if truthy avatar then some (pyStr avatar) else none,
         footer := some "Gitea", timestamp := ts }

/-! ### The code-forge pipeline (`gitea.py` `on_message`) -/

/-- The REST path `GiteaClient` would GET for a classified resource,
exactly the f-strings of `get_repo`/`get_issue`/`get_pull`/`get_commit`/
`get_user` (never asked for an `UNKNOWN` resource). -/
def giteaEndpoint (r : GiteaResource) : String :=
  match r.resource_type with
  | .REPO => "/repos/" ++ r.owner ++ "/" ++ pyStrOpt r.repo
  | .ISSUE => "/repos/" ++ r.owner ++ "/" ++ pyStrOpt r.repo ++ "/issues/" ++ pyStrInt r.number
  | .PULL_REQUEST => "/repos/" ++ r.owner ++ "/" ++ pyStrOpt r.repo ++ "/pulls/" ++ pyStrInt r.number
  | .COMMIT => "/repos/" ++ r.owner ++ "/" ++ pyStrOpt r.repo ++ "/git/commits/" ++ pyStrOpt r.sha
  | .USER => "/users/" ++ r.owner
  | .UNKNOWN => ""

/-- Dispatch of `on_message`'s per-type branches to the builders. -/
def giteaBuild (resource : GiteaResource) (data : Json) (url : String) : Except String Embed :=
  match resource.resource_type with
  | .REPO => build_repo_embed data url
  | .ISSUE => build_issue_embed data resource
  | .PULL_REQUEST => build_pull_embed data resource
  | .COMMIT => build_commit_embed data resource
  | .USER => build_user_embed data url
  | .UNKNOWN => .error "unreachable"

/-- One iteration of the `for url in urls` loop of `gitea.py`'s
`on_message`: classify, skip `UNKNOWN`, fetch (the oracle maps a REST path
to `None` on any non-200/network/JSON failure, as `GiteaClient._get` does),
build inside `try/except` (an exception skips the URL), and emit the embed
when one was built.  Returns the embed emitted (if any) and the REST paths
fetched. -/
def giteaProcessUrl (fetch : String → Option Json) (url : String) :
    Option Embed × List String :=
  let resource := parse_gitea_url url
  match resource.resource_type with
  | .UNKNOWN => (none, [])
  | _ =>
    let ep := giteaEndpoint resource
    match fetch ep with
    | none => (none, [ep])
    | some data =>
      if truthy data then
        match giteaBuild resource data url with
        | .ok e => (some e, [ep])
        | .error _ => (none, [ep])
      else (none, [ep])

structure GiteaMsg where
  content : String
  authorBot : Bool

/-- `gitea.py` `on_message`: return immediately when `message.author.bot`,
otherwise run every recognized URL through its full chain sequentially.
Result: (REST paths fetched, embeds sent to the channel, in order). -/
def giteaOnMessage (m : GiteaMsg) (fetch : String → Option Json) :
    List String × List Embed :=
  if m.authorBot then ([], [])
  else
    (giteaFindall m.content).foldl
      (fun acc url =>
        let r := giteaProcessUrl fetch url
        (acc.1 ++ r.2, acc.2 ++ r.1.toList))
      ([], [])

/-! ### The generic-page pipeline (`ogp.py`) -/

/-- The result of one `soup.select_one("meta[property=og:...]")` call:
the tag can be absent (`select_one` returns `None`), present without a
`content` attribute — in which case `tag["content"]` raises `KeyError` —
or present with one.  (A bs4 `Tag` is always truthy, so the walrus `if`
takes the branch whenever the tag exists.) -/
inductive TagSel where
  | absent
  | noContent
  | content (s : String)
  deriving DecidableEq, Repr

/-- The result of `BeautifulSoup` selection on the fetched HTML: the three
`og:` meta-tag selections and the text of the `<title>` tag (`.text` is
total, so a bare option suffices there). -/
structure Soup where
  ogTitle : TagSel
  titleText : Option String
  ogDescription : TagSel
  ogImage : TagSel
  deriving DecidableEq, Repr

structure PageInfo where
  title : String
  url : String
  description : Option String
  image_url : Option String
  favicon_url : Option String := none
  deriving DecidableEq, Repr

/-- `Page`: the URL plus the fetched document (the raw HTML bytes are
modelled post-parse, as the soup selections `get_info` reads). -/
structure Page where
  url : String
  soup : Soup
  deriving DecidableEq, Repr

/-- `Page.get_info`: title precedence `og:title`, then `<title>`, then
`self.url[8:]` (the source drops 8 characters, the length of `"https://"`).
A matched meta tag without a `content` attribute makes `tag["content"]`
raise `KeyError`; `get_info` has no handler, so the error propagates. -/
def Page.get_info (p : Page) : Except String PageInfo := do
  let title ←
    match p.soup.ogTitle with
    | .content t => pure t
    | .noContent => .error "KeyError"
    | .absent =>
      match p.soup.titleText with
      | some t => pure t
      | none => pure (String.mk (p.url.toList.drop 8))
  let description ←
    match p.soup.ogDescription with
    | .content d => pure (some d)
    | .noContent => .error "KeyError"
    | .absent => pure none
  let image_url ←
    match p.soup.ogImage with
    | .content u => pure (some u)
    | .noContent => .error "KeyError"
    | .absent => pure none
  pure { title := title, url := p.url, description := description,
         image_url := image_url }

/-- `PageInfo.to_embed`: builds the embed from title/url/description and,
when no image URL was found, mutates the receiver's `favicon_url` to
`{scheme}://{netloc}/favicon.ico`.  The mutation is modelled by returning
the updated receiver alongside the embed. -/
def PageInfo.to_embed (self : PageInfo) : Embed × PageInfo :=
  let embed : Embed :=
    { title := self.title, url := self.url,
      description := self.description.getD "" }
  match self.image_url with
  | none =>
    let parsed := urlparse self.url
    (embed,
     { self with favicon_url := some (parsed.scheme ++ "://" ++ parsed.netloc ++ "/favicon.ico") })
  | some _ => (embed, self)

/-- `get_ogp_file`'s attachment filename:
`Path(urlparse(image_url).path).name`. -/
def ogpFileName (u : String) : String :=
  posixName (urlparse u).path

/-- The external world of `ogp.py`'s `on_message`: the page fetch
(`get_page`, `None` on non-200 or any exception), success of the image
download (`get_ogp_file`), success of the favicon download-and-convert
(`get_png_favicon_file`), and whether the `i`-th `channel.send` succeeds. -/
structure OgpWorld where
  fetch : String → Option Soup
  imageOk : String → Bool
  faviconOk : String → Bool
  sendOk : Nat → Bool

inductive OgpEv where
  /-- `tempfile.TemporaryDirectory()` created for iteration `i`. -/
  | create (i : Nat)
  /-- `message.channel.send(embed=..., file=...)` succeeded for iteration `i`. -/
  | send (i : Nat) (e : Embed) (f : Option String)
  /-- `temp_dir.cleanup()` ran for iteration `i`. -/
  | cleanup (i : Nat)
  deriving DecidableEq, Repr

/-- The attachment step of one loop iteration: try the image download when
an image URL exists, else the favicon pipeline on the (mutated)
`favicon_url`; any failure is caught and leaves `file = None` with the
embed unmodified.  A `None` favicon URL makes `requests.get(None)` raise,
which the same `except` catches. -/
def attachStep (w : OgpWorld) (pair : Embed × PageInfo) : Embed × Option String :=
  match pair.2.image_url with
  | some u =>
    if w.imageOk u then
      ({ pair.1 with image := some ("attachment://" ++ ogpFileName u) }, some (ogpFileName u))
    else (pair.1, none)
  | none =>
    match pair.2.favicon_url with
    | some fu =>
      if w.faviconOk fu then
        ({ pair.1 with thumbnail := some "attachment://favicon.png" }, some "favicon.png")
      else (pair.1, none)
    | none => (pair.1, none)

/-- The `for embed, info in zip(page_embeds, page_infos)` loop: per
iteration create the scratch directory, attach, send, cleanup.  A failing
send raises out of the loop: no cleanup for that iteration, no further
iterations.  Returns the event trace and whether the pass completed without
raising. -/
def ogpLoop (w : OgpWorld) : List (Embed × PageInfo) → Nat → List OgpEv × Bool
  | [], _ => ([], true)
  | pair :: rest, i =>
    let a := attachStep w pair
    if w.sendOk i then
      let r := ogpLoop w rest (i + 1)
      (OgpEv.create i :: OgpEv.send i a.1 a.2 :: OgpEv.cleanup i :: r.1, r.2)
    else ([OgpEv.create i], false)

structure OgpMsg where
  content : String
  /-- Present on every message; `ogp.py`'s `on_message` never reads it. -/
  authorBot : Bool

/-- `ogp.py` `on_message`: recognize URLs, fetch all pages concurrently
(`asyncio.gather` preserves input order), drop failed fetches
(`filter(None, ...)`), extract infos, build embeds (mutating each info's
`favicon_url`), then run the send loop.  The
`list(map(lambda p: p.get_info(), found_pages))` call sits outside any
`try/except`: if any page's extraction raises, the whole pass aborts
there — no scratch directory is created and nothing is sent. -/
def ogpOnMessage (m : OgpMsg) (w : OgpWorld) : List OgpEv × Bool :=
  let gsnet_urls := gsnetFindall m.content
  if gsnet_urls.length = 0 then ([], true)
  else
    let all_pages := gsnet_urls.map (fun u => (w.fetch u).map (fun s => Page.mk u s))
    let found_pages := all_pages.filterMap id
    match found_pages.mapM Page.get_info with
    | .error _ => ([], false)
    | .ok page_infos =>
      let pairs := page_infos.map PageInfo.to_embed
      ogpLoop w pairs 0

/-- The embeds delivered to the sink, read off the event trace. -/
def sentEmbeds : List OgpEv → List Embed
  | [] => []
  | OgpEv.send _ e _ :: r => e :: sentEmbeds r
  | _ :: r => sentEmbeds r

/-- The preview the generic-page pipeline produces for a single URL (the
composition fetch → `get_info` → `to_embed` → attach), `none` when the
fetch fails or the extraction raises. -/
def ogpPreview (w : OgpWorld) (u : String) : Option Embed :=
  (w.fetch u).bind (fun s =>
    ((Page.mk u s).get_info).toOption.map (fun i => (attachStep w i.to_embed).1))

/-- The page at `u` (when one is fetched) extracts without raising. -/
def pageParses (w : OgpWorld) (u : String) : Bool :=
  match w.fetch u with
  | none => true
  | some s => (((Page.mk u s).get_info).toOption).isSome

/-! ### Predicates and fixtures used by the statements below -/

def isObjB : Json → Bool
  | .obj _ => true
  | _ => false

/-- The `owner` field, when present and truthy, is a JSON object (so
`owner_data.get` does not raise). -/
def ownerOkB (kvs : List (String × Json)) : Bool :=
  match kvs.lookup "owner" with
  | none => true
  | some v => !truthy v || isObjB v

/-- The `created_at` field, when present and truthy, is a string that
`_parse_datetime` accepts. -/
def createdOkB (kvs : List (String × Json)) : Bool :=
  match kvs.lookup "created_at" with
  | none => true
  | some v =>
    !truthy v ||
      (match v with
       | .str s => (parseIsoDatetime (replaceZ s)).isSome
       | _ => false)

/-- The trimmed remainder of a commit message after its first line, as
`_build_commit_embed` computes it before truncating. -/
def commitRest (message : String) : String :=
  match (splitFirstNL message).2 with
  | some r => pyStrip r
  | none => ""

/-- Commit metadata whose message remainder is 250 characters long. -/
def commitDataLong : Json :=
  .obj [("sha", .str "0123456789abcdef"),
        ("commit", .obj [("message", .str ("fix stuff\n" ++ String.mk (List.replicate 250 'y')))])]

def commitResSample : GiteaResource :=
  { resource_type := .COMMIT, owner := "alice", repo := some "myrepo",
    sha := some "0123456789abcdef", url := "http://10.77.0.20/alice/myrepo/commit/0123456789abcdef" }

/-- The favicon URL `to_embed` derives: `{scheme}://{netloc}/favicon.ico`. -/
def faviconUrlOf (u : String) : String :=
  (urlparse u).scheme ++ "://" ++ (urlparse u).netloc ++ "/favicon.ico"

/-! ## Supporting lemmas -/

theorem except_ok_bind {ε α β : Type} (a : α) (f : α → Except ε β) :
    (Except.ok a >>= f : Except ε β) = f a := rfl

theorem except_pure_bind {ε α β : Type} (a : α) (f : α → Except ε β) :
    ((pure a : Except ε α) >>= f) = f a := rfl

theorem pyOr_str (s : String) : pyOr (.str s) (.str "") = .str s := by
  by_cases h : s = "" <;> simp [pyOr, truthy, h]

theorem pySlice_length (s : String) (n : Nat) :
    (pySlice s n).length = min n s.length := by
  show (s.toList.take n).length = min n s.length
  rw [List.length_take]
  rfl

/-! ## Claim theorems -/

/-- C5 (evaluation at the failing input): for a page with neither
`og:title` nor `<title>` at URL `http://10.0.0.1/`, `Page.get_info`
produces the title `"0.0.0.1/"` — the URL with its first 8 characters
removed — not `"10.0.0.1/"`, the URL with its scheme stripped. -/
theorem claim5_title_eval :
    (Page.get_info ⟨"http://10.0.0.1/", ⟨.absent, none, .absent, .absent⟩⟩).toOption.map
      PageInfo.title = some "0.0.0.1/" ∧
    ¬ (Page.get_info ⟨"http://10.0.0.1/", ⟨.absent, none, .absent, .absent⟩⟩).toOption.map
      PageInfo.title = some "10.0.0.1/" := by
  exact ⟨rfl, by decide⟩

/-- C9: preview construction is idempotent.  Building the generic-page
embed a second time, from the receiver state `to_embed` left behind
(its `favicon_url` mutation included), yields the identical embed; and
every code-forge builder is a pure function of its metadata and resource,
so two builds from identical input are field-for-field identical. -/
theorem claim9_idempotent (info : PageInfo) (d : Json) (r : GiteaResource) (u : String) :
    (PageInfo.to_embed ((PageInfo.to_embed info).2)).1 = (PageInfo.to_embed info).1 ∧
    build_repo_embed d u = build_repo_embed d u ∧
    build_issue_embed d r = build_issue_embed d r ∧
    build_pull_embed d r = build_pull_embed d r ∧
    build_commit_embed d r = build_commit_embed d r ∧
    build_user_embed d u = build_user_embed d u := by
  refine ⟨?_, rfl, rfl, rfl, rfl, rfl⟩
  cases him : info.image_url <;> simp [PageInfo.to_embed, him]

/-- C10: `PageInfo.to_embed` mutates its receiver.  Starting from a
`PageInfo` with no favicon (as `get_info` constructs them): when
`image_url` is `None` the call sets `favicon_url` to
`{scheme}://{netloc}/favicon.ico` derived from the page URL and leaves
every other field unchanged; when `image_url` is present the receiver is
untouched, so `favicon_url` stays `None`. -/
theorem claim10_to_embed_frame (info : PageInfo) (hfav : info.favicon_url = none) :
    (info.image_url = none →
      (PageInfo.to_embed info).2 = { info with favicon_url := some (faviconUrlOf info.url) }) ∧
    (info.image_url ≠ none → (PageInfo.to_embed info).2.favicon_url = none) := by
  constructor
  · intro h
    simp [PageInfo.to_embed, h, faviconUrlOf]
  · intro h
    cases him : info.image_url with
    | none => exact absurd him h
    | some v => simp [PageInfo.to_embed, him, hfav]

/-- Witness for C10 at a concrete page info. -/
theorem claim10_witness :
    (PageInfo.to_embed ⟨"T", "http://10.0.0.5/x", none, none, none⟩).2 =
      ⟨"T", "http://10.0.0.5/x", none, none, some "http://10.0.0.5/favicon.ico"⟩ := by
  have h := (claim10_to_embed_frame ⟨"T", "http://10.0.0.5/x", none, none, none⟩ rfl).1 rfl
  rw [h]
  rfl

/-- C7: any code-forge URL whose path has a 3rd segment `issues` or
`pulls` and a 4th segment that `int()` rejects classifies as `UNKNOWN`
carrying the owner — never as an Issue/PullRequest with a garbage number
(and `parse_gitea_url` is total, so it cannot raise). -/
theorem claim7_nonnumeric_unknown (url : String)
    (h5 : 5 ≤ (posixParts (urlparse url).path).length)
    (hseg : (posixParts (urlparse url).path).getD 3 "" = "issues" ∨
      (posixParts (urlparse url).path).getD 3 "" = "pulls")
    (hnum : pyInt ((posixParts (urlparse url).path).getD 4 "") = none) :
    parse_gitea_url url =
      { resource_type := .UNKNOWN, owner := (posixParts (urlparse url).path).getD 1 "",
        url := url } := by
  unfold parse_gitea_url
  rw [if_neg (by omega)]
  rw [if_neg (by omega)]
  rw [if_neg (by omega)]
  rcases hseg with h3 | h3
  · rw [if_pos ⟨h5, h3⟩, hnum]
  · rw [if_neg (fun hc => by rw [h3] at hc; exact absurd hc.2 (by decide))]
    rw [if_pos ⟨h5, h3⟩, hnum]

/-- Witness for C7: `/alice/myrepo/issues/abc` classifies as `UNKNOWN`
with owner `alice`. -/
theorem claim7_witness :
    parse_gitea_url "http://10.77.0.20/alice/myrepo/issues/abc" =
      { resource_type := .UNKNOWN, owner := "alice",
        url := "http://10.77.0.20/alice/myrepo/issues/abc" } := by
  rw [claim7_nonnumeric_unknown "http://10.77.0.20/alice/myrepo/issues/abc"
    (by decide) (Or.inl (by decide)) (by decide)]
  rfl

/-- C1 (counterexample to disjointness): on the text
`"go http://10.77.0.20/alice now"` the very same substring is returned by
both `GITEA_URL_PATTERN.findall` and `GSNET_URL_PATTERN.findall`. -/
theorem claim1_counterexample :
    "http://10.77.0.20/alice" ∈ giteaFindall "go http://10.77.0.20/alice now" ∧
    "http://10.77.0.20/alice" ∈ gsnetFindall "go http://10.77.0.20/alice now" := by
  constructor <;> decide

/-- C1 (amended): the recognizers are not disjoint — wherever the
code-forge pattern matches, the generic-page pattern matches the same
extent, because host `10.77.0.20` is an instance of the `10.x.x.x` host
shape of `GSNET_URL_PATTERN`. -/
theorem claim1_gitea_match_subsumed (l : List Char) (n : Nat)
    (h : giteaMatchLen l = some n) : gsnetMatchLen l = some n := by
  unfold giteaMatchLen at h
  by_cases hp : (("http://10.77.0.20/".toList).isPrefixOf l) = true
  · rw [if_pos hp] at h
    obtain ⟨t, rfl⟩ := List.isPrefixOf_iff_prefix.mp hp
    have hd : (("http://10.77.0.20/".toList ++ t)).drop 18 = t := rfl
    rw [hd] at h
    have key : gsnetMatchLen ("http://10.77.0.20/".toList ++ t) =
        some (17 + ((t.takeWhile classChar).length + 1)) := rfl
    rw [key]
    have hn : 18 + runLen t = n := Option.some_inj.mp h
    simp only [runLen] at hn
    exact congrArg some (by omega)
  · rw [if_neg hp] at h
    exact absurd h (by simp)

/-- Witness for C1's amended theorem at a concrete single-URL text. -/
theorem claim1_witness :
    gsnetMatchLen ("http://10.77.0.20/a".toList) = some 19 :=
  claim1_gitea_match_subsumed ("http://10.77.0.20/a".toList) 19 (by decide)

/-- C2 (amended): the code-forge handler ignores any message whose author
is a bot (the bot itself included): no fetch is performed and no embed is
emitted.  The generic-page handler performs no author check at all — its
behaviour is independent of the author flag — and it does process a
self-authored message containing a recognized URL, emitting a preview. -/
theorem claim2_author_filter :
    (∀ (content : String) (fetch : String → Option Json),
      giteaOnMessage ⟨content, true⟩ fetch = ([], [])) ∧
    (∀ (content : String) (b : Bool) (w : OgpWorld),
      ogpOnMessage ⟨content, b⟩ w = ogpOnMessage ⟨content, false⟩ w) ∧
    (sentEmbeds (ogpOnMessage ⟨"http://10.0.0.7/x", true⟩
      ⟨fun _ => some ⟨.content "T", none, .absent, .absent⟩,
       fun _ => true, fun _ => true, fun _ => true⟩).1).length = 1 := by
  refine ⟨fun content fetch => rfl, fun content b w => rfl, by decide⟩

/-- C2 (counterexample): a self-authored message containing a
generic-page URL is processed by `ogp.py`'s pipeline — a preview is
emitted for it. -/
theorem claim2_counterexample :
    (ogpOnMessage ⟨"http://10.0.0.7/x", true⟩
      ⟨fun _ => some ⟨.content "Hello", none, .absent, .absent⟩,
       fun _ => true, fun _ => true, fun _ => true⟩).1 =
      [OgpEv.create 0,
       OgpEv.send 0
         { title := "Hello", url := "http://10.0.0.7/x", description := "",
           thumbnail := some "attachment://favicon.png" }
         (some "favicon.png"),
       OgpEv.cleanup 0] := by
  decide

theorem length_filterMap_all_some {α β : Type} (f : α → Option β) :
    ∀ l : List α, (∀ u ∈ l, (f u).isSome) → (l.filterMap f).length = l.length := by
  intro l
  induction l with
  | nil => intro _; rfl
  | cons a t ih =>
    intro h
    obtain ⟨e, he⟩ := Option.isSome_iff_exists.mp (h a (by simp))
    simp only [List.filterMap_cons, he, List.length_cons]
    rw [ih (fun u hu => h u (by simp [hu]))]

theorem filterMap_one_fail {α β : Type} [BEq α] [LawfulBEq α]
    (f : α → Option β) (bad : α) :
    ∀ us : List α, us.count bad = 1 → f bad = none →
      (∀ u ∈ us, u ≠ bad → (f u).isSome) →
      (us.filterMap f).length = us.length - 1 ∧
      us.filterMap f = (us.filter (fun u => u != bad)).filterMap f := by
  intro us
  induction us with
  | nil => intro h; simp at h
  | cons a t ih =>
    intro hc hbad hok
    by_cases hab : a = bad
    · subst hab
      have hct : t.count a = 0 := by
        rw [List.count_cons_self] at hc
        omega
      have hnt : a ∉ t := List.count_eq_zero.mp hct
      have hall : ∀ u ∈ t, (f u).isSome := by
        intro u hu
        exact hok u (by simp [hu]) (fun he => hnt (he ▸ hu))
      have hfil : t.filter (fun u => u != a) = t := by
        refine List.filter_eq_self.mpr (fun u hu => ?_)
        exact bne_iff_ne.mpr (fun he => hnt (he ▸ hu))
      constructor
      · simp only [List.filterMap_cons, hbad, List.length_cons]
        rw [length_filterMap_all_some f t hall]
        omega
      · simp only [List.filterMap_cons, hbad, List.filter_cons, bne_self_eq_false,
          Bool.false_eq_true, if_false, hfil]
    · have hct : t.count bad = 1 := by
        rw [List.count_cons_of_ne (fun he => hab he.symm)] at hc
        exact hc
      obtain ⟨e, he⟩ := Option.isSome_iff_exists.mp (hok a (by simp) hab)
      have hmem : bad ∈ t := by
        have : 0 < t.count bad := by omega
        exact List.count_pos_iff.mp this
      have hlen : 1 ≤ t.length := List.length_pos_of_mem hmem
      obtain ⟨ih1, ih2⟩ := ih hct hbad (fun u hu hne => hok u (by simp [hu]) hne)
      constructor
      · simp only [List.filterMap_cons, he, List.length_cons]
        omega
      · have habne : (a != bad) = true := bne_iff_ne.mpr hab
        simp only [List.filterMap_cons, he, List.filter_cons, habne, if_true, ih2]

theorem gitea_foldl_embeds (fetch : String → Option Json) :
    ∀ (us : List String) (acc : List String × List Embed),
      (us.foldl (fun acc url =>
          let r := giteaProcessUrl fetch url
          (acc.1 ++ r.2, acc.2 ++ r.1.toList)) acc).2 =
        acc.2 ++ us.filterMap (fun u => (giteaProcessUrl fetch u).1) := by
  intro us
  induction us with
  | nil => intro acc; simp
  | cons u t ih =>
    intro acc
    rw [List.foldl_cons, ih]
    cases h : (giteaProcessUrl fetch u).1 <;>
      simp [h, List.filterMap_cons, List.append_assoc]

theorem giteaOnMessage_embeds (content : String) (fetch : String → Option Json) :
    (giteaOnMessage ⟨content, false⟩ fetch).2 =
      (giteaFindall content).filterMap (fun u => (giteaProcessUrl fetch u).1) := by
  have h := gitea_foldl_embeds fetch (giteaFindall content) ([], [])
  simpa [giteaOnMessage] using h

theorem ogpLoop_sends (w : OgpWorld) (hs : ∀ i, w.sendOk i = true) :
    ∀ (ps : List (Embed × PageInfo)) (i : Nat),
      sentEmbeds (ogpLoop w ps i).1 = ps.map (fun p => (attachStep w p).1) ∧
      (ogpLoop w ps i).2 = true := by
  intro ps
  induction ps with
  | nil => intro i; exact ⟨rfl, rfl⟩
  | cons p t ih =>
    intro i
    have h1 := (ih (i + 1)).1
    have h2 := (ih (i + 1)).2
    simp [ogpLoop, hs i, sentEmbeds, h1, h2]

theorem mapM_get_info_ok :
    ∀ ps : List Page, (∀ p ∈ ps, ((Page.get_info p).toOption).isSome) →
      ps.mapM Page.get_info = .ok (ps.filterMap (fun p => (Page.get_info p).toOption)) := by
  intro ps
  induction ps with
  | nil => intro _; rfl
  | cons p t ih =>
    intro h
    obtain ⟨i, hi⟩ := Option.isSome_iff_exists.mp (h p (by simp))
    have hok : Page.get_info p = .ok i := by
      cases hg : Page.get_info p with
      | ok v =>
        rw [hg] at hi
        simp [Except.toOption] at hi
        rw [hi]
      | error e =>
        rw [hg] at hi
        simp [Except.toOption] at hi
    rw [List.mapM_cons, hok, ih (fun q hq => h q (by simp [hq]))]
    simp [except_ok_bind, except_pure_bind, List.filterMap_cons, hok, Except.toOption]

theorem ogpOnMessage_sends (m : OgpMsg) (w : OgpWorld) (hs : ∀ i, w.sendOk i = true)
    (hparse : ∀ u ∈ gsnetFindall m.content, pageParses w u = true) :
    sentEmbeds (ogpOnMessage m w).1 = (gsnetFindall m.content).filterMap (ogpPreview w) ∧
    (ogpOnMessage m w).2 = true := by
  simp only [ogpOnMessage]
  by_cases h : (gsnetFindall m.content).length = 0
  · rw [if_pos h]
    have he : gsnetFindall m.content = [] := List.length_eq_zero.mp h
    rw [he]
    exact ⟨rfl, rfl⟩
  · rw [if_neg h]
    have hfound : ∀ p ∈ ((gsnetFindall m.content).map
        (fun u => (w.fetch u).map (fun s => Page.mk u s))).filterMap id,
        ((Page.get_info p).toOption).isSome := by
      intro p hp
      rw [List.mem_filterMap] at hp
      obtain ⟨o, ho, hid⟩ := hp
      rw [List.mem_map] at ho
      obtain ⟨u, hu, rfl⟩ := ho
      cases hf : w.fetch u with
      | none =>
        rw [hf] at hid
        simp at hid
      | some s =>
        rw [hf] at hid
        simp at hid
        have hpp := hparse u hu
        rw [pageParses, hf] at hpp
        rw [← hid]
        exact hpp
    rw [mapM_get_info_ok _ hfound]
    obtain ⟨h1, h2⟩ := ogpLoop_sends w hs
      (((((gsnetFindall m.content).map (fun u => (w.fetch u).map (fun s => Page.mk u s))).filterMap
          id).filterMap (fun p => (Page.get_info p).toOption)).map PageInfo.to_embed) 0
    refine ⟨?_, h2⟩
    rw [h1]
    simp only [List.map_map, List.filterMap_map, List.filterMap_filterMap, List.map_filterMap,
      Option.map_map]
    congr 1
    funext u
    cases hf : w.fetch u
    · simp [ogpPreview, hf]
    · simp only [Function.comp, id, ogpPreview, hf]
      rfl

/-- C3 (counterexample): a metadata-parsing failure is not isolated per
URL in the generic-page family.  Two recognized URLs, both fetched; the
first page's HTML holds `<meta property="og:title">` with no `content`
attribute (and a perfectly good `<title>`), the second parses fine.  The
`KeyError` from `tag["content"]` raises out of the whole pass: zero
previews are emitted (not N−1 = 1) and the run does not complete. -/
theorem claim3_counterexample :
    (gsnetFindall "http://10.0.0.1/a http://10.0.0.2/b").length = 2 ∧
    ogpOnMessage ⟨"http://10.0.0.1/a http://10.0.0.2/b", false⟩
      ⟨fun u => if u = "http://10.0.0.1/a" then some ⟨.noContent, some "T2", .absent, .absent⟩
        else some ⟨.content "Hello", none, .absent, .absent⟩,
       fun _ => true, fun _ => true, fun _ => true⟩ = ([], false) := by
  constructor <;> decide

/-- C3 (amended): per-URL failure isolation holds for the code-forge
family (unknown classification, failed or falsy fetch, or a builder
exception — everything `giteaProcessUrl` turns into `none`) and, in the
generic-page family, when the failing stage is the page fetch and every
fetched page's metadata extraction succeeds: then exactly N−1 previews
are emitted, in the relative order of their source URLs, the run
completes without raising, and nothing but the previews reaches the
sink.  A metadata-parsing failure instead aborts the whole generic-page
pass (see the counterexample). -/
theorem claim3_partial_failure_isolation
    (gContent : String) (gFetch : String → Option Json) (gBad : String)
    (hgCount : (giteaFindall gContent).count gBad = 1)
    (hgFail : (giteaProcessUrl gFetch gBad).1 = none)
    (hgOk : ∀ u ∈ giteaFindall gContent, u ≠ gBad → ((giteaProcessUrl gFetch u).1).isSome)
    (oContent : String) (w : OgpWorld) (oBad : String)
    (hoSend : ∀ i, w.sendOk i = true)
    (hoCount : (gsnetFindall oContent).count oBad = 1)
    (hoFail : w.fetch oBad = none)
    (hoOk : ∀ u ∈ gsnetFindall oContent, u ≠ oBad → (w.fetch u).isSome)
    (hoParse : ∀ u ∈ gsnetFindall oContent, pageParses w u = true) :
    ((giteaOnMessage ⟨gContent, false⟩ gFetch).2.length = (giteaFindall gContent).length - 1 ∧
      (giteaOnMessage ⟨gContent, false⟩ gFetch).2 =
        ((giteaFindall gContent).filter (fun u => u != gBad)).filterMap
          (fun u => (giteaProcessUrl gFetch u).1)) ∧
    ((sentEmbeds (ogpOnMessage ⟨oContent, false⟩ w).1).length =
        (gsnetFindall oContent).length - 1 ∧
      sentEmbeds (ogpOnMessage ⟨oContent, false⟩ w).1 =
        ((gsnetFindall oContent).filter (fun u => u != oBad)).filterMap (ogpPreview w) ∧
      (ogpOnMessage ⟨oContent, false⟩ w).2 = true) := by
  obtain ⟨hsends, hterm⟩ := ogpOnMessage_sends ⟨oContent, false⟩ w hoSend hoParse
  have hg := giteaOnMessage_embeds gContent gFetch
  have hgf := filterMap_one_fail (fun u => (giteaProcessUrl gFetch u).1) gBad
    (giteaFindall gContent) hgCount hgFail hgOk
  have hoFail2 : ogpPreview w oBad = none := by simp [ogpPreview, hoFail]
  have hoOk2 : ∀ u ∈ gsnetFindall oContent, u ≠ oBad → (ogpPreview w u).isSome := by
    intro u hu hne
    obtain ⟨s, hsz⟩ := Option.isSome_iff_exists.mp (hoOk u hu hne)
    have hpp := hoParse u hu
    rw [pageParses, hsz] at hpp
    have hpp2 : (((Page.mk u s).get_info).toOption).isSome = true := hpp
    obtain ⟨i, hi⟩ := Option.isSome_iff_exists.mp hpp2
    simp [ogpPreview, hsz, hi]
  have hof := filterMap_one_fail (ogpPreview w) oBad (gsnetFindall oContent)
    hoCount hoFail2 hoOk2
  exact ⟨⟨by rw [hg]; exact hgf.1, by rw [hg]; exact hgf.2⟩,
    ⟨by rw [hsends]; exact hof.1, by rw [hsends]; exact hof.2, hterm⟩⟩

/-- Witness for C3: two URLs per family, one failing fetch each, emit
exactly one preview each. -/
theorem claim3_witness :
    (giteaOnMessage ⟨"http://10.77.0.20/u1 http://10.77.0.20/alice/myrepo", false⟩
      (fun p => if p = "/repos/alice/myrepo" then
        some (.obj [("full_name", .str "alice/myrepo")]) else none)).2.length = 1 ∧
    (sentEmbeds (ogpOnMessage ⟨"http://10.0.0.1/a http://10.0.0.2/b", false⟩
      ⟨fun u => if u = "http://10.0.0.2/b" then
          some ⟨.content "T", none, .absent, .absent⟩ else none,
       fun _ => true, fun _ => true, fun _ => true⟩).1).length = 1 := by
  have h := claim3_partial_failure_isolation
    "http://10.77.0.20/u1 http://10.77.0.20/alice/myrepo"
    (fun p => if p = "/repos/alice/myrepo" then
      some (.obj [("full_name", .str "alice/myrepo")]) else none)
    "http://10.77.0.20/u1"
    (by decide) (by decide) (by decide)
    "http://10.0.0.1/a http://10.0.0.2/b"
    ⟨fun u => if u = "http://10.0.0.2/b" then
        some ⟨.content "T", none, .absent, .absent⟩ else none,
     fun _ => true, fun _ => true, fun _ => true⟩
    "http://10.0.0.1/a"
    (fun _ => rfl) (by decide) (by decide) (by decide) (by decide)
  constructor
  · rw [h.1.1]; decide
  · rw [h.2.1]; decide

/-- For every completed iteration (the send succeeded) the scratch
directory of that iteration is cleaned up. -/
theorem ogpLoop_cleanup (w : OgpWorld) (hs : ∀ i, w.sendOk i = true) :
    ∀ (ps : List (Embed × PageInfo)) (i : Nat) (j : Nat),
      OgpEv.create j ∈ (ogpLoop w ps i).1 → OgpEv.cleanup j ∈ (ogpLoop w ps i).1 := by
  intro ps
  induction ps with
  | nil => intro i j h; simp [ogpLoop] at h
  | cons p t ih =>
    intro i j h
    simp only [ogpLoop, hs i, if_true] at h ⊢
    rcases List.mem_cons.mp h with h1 | h
    · simp at h1
      subst h1
      simp
    rcases List.mem_cons.mp h with h1 | h
    · exact absurd h1 (by simp)
    rcases List.mem_cons.mp h with h1 | h
    · exact absurd h1 (by simp)
    · have := ih (i + 1) j h
      simp [this]

/-- C6 (counterexample): when the send to the sink raises, the scratch
directory created for that pass is never cleaned up and the pass aborts —
the trace holds the `create` but no `cleanup`. -/
theorem claim6_counterexample :
    ogpOnMessage ⟨"http://10.0.0.9/p", false⟩
      ⟨fun _ => some ⟨.content "T", none, .absent, .absent⟩,
       fun _ => true, fun _ => true, fun _ => false⟩ =
      ([OgpEv.create 0], false) ∧
    OgpEv.cleanup 0 ∉ (ogpOnMessage ⟨"http://10.0.0.9/p", false⟩
      ⟨fun _ => some ⟨.content "T", none, .absent, .absent⟩,
       fun _ => true, fun _ => true, fun _ => false⟩).1 := by
  constructor <;> decide

/-- C6 (amended): the scratch directory (created per URL iteration) is
deleted on the normal path and on attachment download/conversion failure
paths, which are caught; but only provided every send to the sink
succeeds — a raising send skips that iteration's cleanup and aborts the
pass. -/
theorem claim6_scratch_cleanup (m : OgpMsg) (w : OgpWorld)
    (hs : ∀ i, w.sendOk i = true)
    (hparse : ∀ u ∈ gsnetFindall m.content, pageParses w u = true) :
    (∀ j, OgpEv.create j ∈ (ogpOnMessage m w).1 →
      OgpEv.cleanup j ∈ (ogpOnMessage m w).1) ∧
    (ogpOnMessage m w).2 = true := by
  refine ⟨?_, (ogpOnMessage_sends m w hs hparse).2⟩
  intro j
  simp only [ogpOnMessage]
  by_cases h : (gsnetFindall m.content).length = 0
  · rw [if_pos h]
    intro hj
    simp at hj
  · rw [if_neg h]
    split
    · intro hj
      simp at hj
    · intro hj
      exact ogpLoop_cleanup w hs _ 0 j hj

/-- Witness for C6's amended theorem at a concrete run with a failing
favicon conversion but a succeeding send. -/
theorem claim6_witness :
    OgpEv.cleanup 0 ∈ (ogpOnMessage ⟨"http://10.0.0.9/p", false⟩
      ⟨fun _ => some ⟨.content "T", none, .absent, .absent⟩,
       fun _ => true, fun _ => false, fun _ => true⟩).1 ∧
    (ogpOnMessage ⟨"http://10.0.0.9/p", false⟩
      ⟨fun _ => some ⟨.content "T", none, .absent, .absent⟩,
       fun _ => true, fun _ => false, fun _ => true⟩).2 = true := by
  have h := claim6_scratch_cleanup ⟨"http://10.0.0.9/p", false⟩
    ⟨fun _ => some ⟨.content "T", none, .absent, .absent⟩,
     fun _ => true, fun _ => false, fun _ => true⟩ (fun _ => rfl) (by decide)
  exact ⟨h.1 0 (by decide), h.2⟩


set_option maxRecDepth 8000 in
/-- C4 (counterexample): a commit whose message remainder is 250
characters long yields a description of length 200 — `min(250, 200)` with
no 3-character ellipsis — not 203 as the uniform truncation law demands. -/
theorem claim4_counterexample :
    ((build_commit_embed commitDataLong commitResSample).toOption.map
      (fun e => e.description.length)) = some 200 ∧
    ¬ ((build_commit_embed commitDataLong commitResSample).toOption.map
      (fun e => e.description.length)) = some 203 := by
  constructor <;> decide

/-- C4 (amended): for a body of length L the issue and pull-request
builders produce a description of length `min(L, 200)` plus 3 extra
characters exactly when `L > 200`; the commit builder truncates the
trimmed remainder of length L to `min(L, 200)` and never appends an
ellipsis. -/
theorem claim4_truncation (s : String) (r : GiteaResource) :
    ((build_issue_embed (.obj [("body", .str s)]) r).toOption.map
        (fun e => e.description.length)) =
      some (min s.length 200 + (if 200 < s.length then 3 else 0)) ∧
    ((build_pull_embed (.obj [("body", .str s)]) r).toOption.map
        (fun e => e.description.length)) =
      some (min s.length 200 + (if 200 < s.length then 3 else 0)) ∧
    ((build_commit_embed (.obj [("commit", .obj [("message", .str s)])]) r).toOption.map
        (fun e => e.description.length)) =
      some (min (commitRest s).length 200) := by
  have h3 : ("..." : String).length = 3 := rfl
  refine ⟨?_, ?_, ?_⟩
  · simp only [build_issue_embed, dictGet, List.lookup, except_ok_bind, asPyStr]
    by_cases hs : s = ""
    · subst hs
      simp [truthy, pyOr, except_ok_bind, Except.toOption, pySlice]
    · simp only [truthy, pyOr, hs, except_ok_bind, Except.toOption]
      simp [Except.toOption, hs]
      rw [pySlice_length]
      by_cases h : 200 < s.length <;> simp [h, h3] <;> omega
  · simp only [build_pull_embed, pr_state_label, pr_color, dictGet, List.lookup,
      except_ok_bind, asPyStr]
    by_cases hs : s = ""
    · subst hs
      simp [truthy, pyOr, except_ok_bind, Except.toOption, pySlice]
    · simp only [truthy, pyOr, hs, except_ok_bind, Except.toOption]
      simp [Except.toOption, hs]
      rw [pySlice_length]
      by_cases h : 200 < s.length <;> simp [h, h3] <;> omega
  · simp only [build_commit_embed, dictGet, List.lookup, except_ok_bind, asPyStr]
    by_cases hs : s = ""
    · subst hs
      simp [truthy, pyOr, except_ok_bind, Except.toOption, pySlice, commitRest,
        splitFirstNL, splitOnFirst, pyStrip, List.lookup]
    · simp [truthy, pyOr, hs, except_ok_bind, Except.toOption, commitRest, List.lookup]
      rw [pySlice_length]
      omega



/-- C8 (counterexample): a repo document whose `created_at` is present but
not a parseable timestamp makes `_build_repo_embed` raise (`ValueError`
inside `_parse_datetime`); the caller's `try/except` then drops the whole
preview instead of omitting the field. -/
theorem claim8_counterexample :
    (build_repo_embed
      (.obj [("full_name", .str "a/b"), ("created_at", .str "garbage")]) "u").toOption = none ∧
    (giteaProcessUrl
      (fun p => if p = "/repos/alice/myrepo" then
        some (.obj [("full_name", .str "a/b"), ("created_at", .str "garbage")]) else none)
      "http://10.77.0.20/alice/myrepo").1 = none := by
  constructor <;> decide

/-- C8 (amended): absence of any expected field never makes a builder
throw — every builder succeeds on the empty document — and the repo
builder succeeds on any document whose `owner` field, when present and
truthy, is an object and whose `created_at`, when present and truthy, is
a parseable timestamp string; a present-but-malformed field breaks this
(see the counterexample). -/
theorem claim8_graceful (kvs : List (String × Json)) (url : String) (r : GiteaResource)
    (h1 : ownerOkB kvs = true) (h2 : createdOkB kvs = true) :
    (build_repo_embed (.obj kvs) url).toOption.isSome = true ∧
    (build_repo_embed (.obj []) url).toOption.isSome = true ∧
    (build_issue_embed (.obj []) r).toOption.isSome = true ∧
    (build_pull_embed (.obj []) r).toOption.isSome = true ∧
    (build_commit_embed (.obj []) r).toOption.isSome = true ∧
    (build_user_embed (.obj []) url).toOption.isSome = true := by
  refine ⟨?_, rfl, rfl, rfl, rfl, rfl⟩
  simp only [build_repo_embed, dictGet, except_ok_bind]
  have hcv : truthy ((List.lookup "created_at" kvs).getD Json.null) = true →
      ∃ d, parse_datetime ((List.lookup "created_at" kvs).getD Json.null) = .ok d := by
    intro ht
    rw [createdOkB] at h2
    rcases hc : List.lookup "created_at" kvs with _ | v
    · rw [hc] at ht
      simp [truthy] at ht
    · rw [hc] at h2 ht
      simp only [Option.getD_some] at ht ⊢
      cases v with
      | str s =>
        have h2' : (!truthy (Json.str s) || (parseIsoDatetime (replaceZ s)).isSome) = true := h2
        rw [ht] at h2'
        simp only [Bool.not_true, Bool.false_or] at h2'
        obtain ⟨d, hd⟩ := Option.isSome_iff_exists.mp h2'
        exact ⟨d, by simp [parse_datetime, hd]⟩
      | null => simp [truthy] at ht
      | bool b =>
        have h2' : (!truthy (Json.bool b) || false) = true := h2
        rw [ht] at h2'
        simp at h2'
      | num n =>
        have h2' : (!truthy (Json.num n) || false) = true := h2
        rw [ht] at h2'
        simp at h2'
      | arr xs =>
        have h2' : (!truthy (Json.arr xs) || false) = true := h2
        rw [ht] at h2'
        simp at h2'
      | obj kvs2 =>
        have h2' : (!truthy (Json.obj kvs2) || false) = true := h2
        rw [ht] at h2'
        simp at h2'
  by_cases hov : truthy ((List.lookup "owner" kvs).getD (Json.obj [])) = true
  · have hobj : ∃ l, (List.lookup "owner" kvs).getD (Json.obj []) = Json.obj l := by
      rw [ownerOkB] at h1
      rcases ho : List.lookup "owner" kvs with _ | v
      · exact ⟨[], by simp⟩
      · rw [ho] at h1 hov
        simp only [Option.getD_some] at hov ⊢
        have h1' : (!truthy v || isObjB v) = true := h1
        rw [hov] at h1'
        simp only [Bool.not_true, Bool.false_or] at h1'
        cases v with
        | obj l => exact ⟨l, rfl⟩
        | null => simp [isObjB] at h1'
        | bool b => simp [isObjB] at h1'
        | num n => simp [isObjB] at h1'
        | str s2 => simp [isObjB] at h1'
        | arr xs => simp [isObjB] at h1'
    obtain ⟨l, hl⟩ := hobj
    by_cases hct : truthy ((List.lookup "created_at" kvs).getD Json.null) = true
    · obtain ⟨d, hd⟩ := hcv hct
      rw [if_pos hov, hl]
      simp only [except_ok_bind, except_pure_bind]
      rw [if_pos hct, hd]
      rfl
    · rw [if_pos hov, hl]
      simp only [except_ok_bind, except_pure_bind]
      rw [if_neg hct]
      rfl
  · by_cases hct : truthy ((List.lookup "created_at" kvs).getD Json.null) = true
    · obtain ⟨d, hd⟩ := hcv hct
      rw [if_neg hov]
      simp only [except_ok_bind, except_pure_bind]
      rw [if_pos hct, hd]
      rfl
    · rw [if_neg hov]
      simp only [except_ok_bind, except_pure_bind]
      rw [if_neg hct]
      rfl

/-- Witness for C8's amended theorem on a well-shaped repo document. -/
theorem claim8_witness :
    (build_repo_embed (.obj [("full_name", .str "a/b"),
      ("owner", .obj [("login", .str "alice")]),
      ("created_at", .str "2021-01-02T03:04:05Z")]) "u").toOption.isSome = true :=
  (claim8_graceful
    [("full_name", .str "a/b"), ("owner", .obj [("login", .str "alice")]),
     ("created_at", .str "2021-01-02T03:04:05Z")] "u"
    { resource_type := .REPO, owner := "a", url := "u" }
    (by decide) (by decide)).1
